import Mathlib

/-!
Shallow embedding of the Stylus tic-tac-toe contract (`src/lib.rs`) and
verification of its natural-language specification.

Modelling conventions:
* `U256` storage slots hold small naturals here (`Nat`); cell values are
  0 = empty, 1 = player mark, 2 = contract (opponent) mark, exactly as the
  source comments state.
* The 9-slot `StorageArray` board is a function `Nat → Nat`; the code only
  ever reads and writes indices 0..8.
* Addresses are opaque comparable tokens, modelled as `Nat`; the contract's
  own "house" winner address `Address::ZERO` is `0`.
* Each public entry point returns the post-state, the list of emitted
  events in order, and `none` or `some e` for the `Result` value.  The Rust
  error returns happen before any storage write, so an error arm returns
  the input state unchanged.
-/

set_option maxRecDepth 4096
set_option autoImplicit false

/-- Events emitted by the contract (the `sol!` block). -/
inductive Event where
  | GameStarted (player : Nat)
  | PlayerMove (position : Nat)
  | ContractMove (position : Nat)
  | GameWon (winner : Nat)
  | GameDrawn
  deriving DecidableEq, Repr

/-- The error values returned by `start_game` and `make_move`
(the byte strings of the Rust code, as an enumeration). -/
inductive GameError where
  | GameAlreadyActive   -- "Game already in progress"
  | InvalidPosition     -- "Invalid position"
  | GameNotActive       -- "Game not in progress"
  | NotAuthorized       -- "Not your game"
  | OutOfTurn           -- "Not your turn"
  | CellOccupied        -- "Position already taken"
  deriving DecidableEq, Repr

/-- `const BOARD_SIZE: usize = 9`. -/
def BOARD_SIZE : Nat := 9

/-- The contract storage: board cells, player address, current turn
(1 = player, 2 = contract), game status (0 = not started, 1 = in progress,
2 = finished) and the (unused) RNG seed. -/
structure Contract where
  board : Nat → Nat
  player : Nat
  current_turn : Nat
  game_status : Nat
  rng_seed : Nat

/-- `would_win`: whether the given (hypothetical) board has a winning
line — rows, then columns, then diagonals, each cell non-zero and the
triple equal. -/
def would_win (b : Nat → Nat) : Bool :=
  -- rows, i = 0, 3, 6
  (b 0 != 0 && b 0 == b 1 && b 0 == b 2) ||
  (b 3 != 0 && b 3 == b 4 && b 3 == b 5) ||
  (b 6 != 0 && b 6 == b 7 && b 6 == b 8) ||
  -- columns, i = 0, 1, 2
  (b 0 != 0 && b 0 == b 3 && b 0 == b 6) ||
  (b 1 != 0 && b 1 == b 4 && b 1 == b 7) ||
  (b 2 != 0 && b 2 == b 5 && b 2 == b 8) ||
  -- diagonals
  (b 0 != 0 && b 0 == b 4 && b 0 == b 8) ||
  (b 2 != 0 && b 2 == b 4 && b 2 == b 6)

/-- `check_winner`: the same line scan performed directly on the stored
board. -/
def check_winner (s : Contract) : Bool :=
  (s.board 0 != 0 && s.board 0 == s.board 1 && s.board 0 == s.board 2) ||
  (s.board 3 != 0 && s.board 3 == s.board 4 && s.board 3 == s.board 5) ||
  (s.board 6 != 0 && s.board 6 == s.board 7 && s.board 6 == s.board 8) ||
  (s.board 0 != 0 && s.board 0 == s.board 3 && s.board 0 == s.board 6) ||
  (s.board 1 != 0 && s.board 1 == s.board 4 && s.board 1 == s.board 7) ||
  (s.board 2 != 0 && s.board 2 == s.board 5 && s.board 2 == s.board 8) ||
  (s.board 0 != 0 && s.board 0 == s.board 4 && s.board 0 == s.board 8) ||
  (s.board 2 != 0 && s.board 2 == s.board 4 && s.board 2 == s.board 6)

/-- `is_board_full`: no cell of indices 0..8 is 0. -/
def is_board_full (s : Contract) : Bool :=
  (List.range BOARD_SIZE).all (fun i => s.board i != 0)

/-- `find_winning_move`: scan positions 0..8 in order; at each empty
position, place `player`'s mark on a copy of the board and return the
first position for which the copy wins. -/
def find_winning_move (s : Contract) (player : Nat) : Option Nat :=
  (List.range BOARD_SIZE).find? (fun pos =>
    s.board pos == 0 && would_win (Function.update s.board pos player))

/-- The corner scan order of `make_contract_move`, rule 4. -/
def corners : List Nat := [0, 2, 6, 8]

/-- The position `make_contract_move` commits to: win, block, center,
first free corner, first free cell — the first rule that yields a
position; `none` when even rule 5 finds no empty cell (the Rust function
then falls through and returns without moving). -/
def choose_contract_move (s : Contract) : Option Nat :=
  match find_winning_move s 2 with
  | some pos => some pos
  | none =>
    match find_winning_move s 1 with
    | some pos => some pos
    | none =>
      if s.board 4 = 0 then some 4
      else
        match corners.find? (fun c => s.board c == 0) with
        | some c => some c
        | none => (List.range BOARD_SIZE).find? (fun i => s.board i == 0)

/-- `make_contract_move_at`: write the contract's mark, emit
`ContractMove`, then check win, then draw, else hand the turn back. -/
def make_contract_move_at (s : Contract) (position : Nat) :
    Contract × List Event :=
  let s1 : Contract := { s with board := Function.update s.board position 2 }
  if check_winner s1 then
    ({ s1 with game_status := 2 }, [.ContractMove position, .GameWon 0])
  else if is_board_full s1 then
    ({ s1 with game_status := 2 }, [.ContractMove position, .GameDrawn])
  else
    ({ s1 with current_turn := 1 }, [.ContractMove position])

/-- `make_contract_move`: apply the chosen move, or do nothing when no
rule yielded a position. -/
def make_contract_move (s : Contract) : Contract × List Event :=
  match choose_contract_move s with
  | some pos => make_contract_move_at s pos
  | none => (s, [])

/-- `start_game`.  The guard is the code's `game_status != 0`; on success
the loop clears cells 0..8 and the player, turn and status slots are set. -/
def start_game (s : Contract) (sender : Nat) :
    Contract × List Event × Option GameError :=
  if s.game_status ≠ 0 then (s, [], some .GameAlreadyActive)
  else
    ({ board := fun i => if i < BOARD_SIZE then 0 else s.board i,
       player := sender, current_turn := 1, game_status := 1,
       rng_seed := s.rng_seed },
     [.GameStarted sender], none)

/-- `position.try_into().unwrap_or(BOARD_SIZE)`: the U256 argument
converted to the wasm32 `usize`, defaulting to `BOARD_SIZE` when it does
not fit. -/
def u256_to_usize (position : Nat) : Nat :=
  if position < 2 ^ 32 then position else BOARD_SIZE

/-- `make_move`: the five validation checks in source order, then the
player's mark, the win check, the draw check, and otherwise the
contract's synchronous reply. -/
def make_move (s : Contract) (sender : Nat) (position : Nat) :
    Contract × List Event × Option GameError :=
  let pos := u256_to_usize position
  if BOARD_SIZE ≤ pos then (s, [], some .InvalidPosition)
  else if s.game_status ≠ 1 then (s, [], some .GameNotActive)
  else if sender ≠ s.player then (s, [], some .NotAuthorized)
  else if s.current_turn ≠ 1 then (s, [], some .OutOfTurn)
  else if s.board pos ≠ 0 then (s, [], some .CellOccupied)
  else
    let s1 : Contract := { s with board := Function.update s.board pos 1 }
    if check_winner s1 then
      ({ s1 with game_status := 2 }, [.PlayerMove position, .GameWon sender], none)
    else if is_board_full s1 then
      ({ s1 with game_status := 2 }, [.PlayerMove position, .GameDrawn], none)
    else
      let s2 : Contract := { s1 with current_turn := 2 }
      let r := make_contract_move s2
      (r.1, .PlayerMove position :: r.2, none)

/-- `supports_interface`: the four bytes are read big-endian into a `u32`
and compared with the ERC-165 id.  The method reads no storage. -/
def supports_interface (s : Contract) (b0 b1 b2 b3 : Nat) : Bool :=
  let id := ((b0 * 256 + b1) * 256 + b2) * 256 + b3
  id == 0x01ffc9a7

/-- `get_game_state`: the board snapshot and the three scalar slots. -/
def get_game_state (s : Contract) : (Nat → Nat) × Nat × Nat × Nat :=
  ((fun i => if i < BOARD_SIZE then s.board i else 0),
   s.player, s.current_turn, s.game_status)

/- ------------------------------------------------------------------
Spec-side definitions (worded from `spec.md`, for refinement claims).
------------------------------------------------------------------ -/

/-- The 8 fixed winning triples of the spec, §4.2. -/
def winLines : List (Nat × Nat × Nat) :=
  [(0,1,2), (3,4,5), (6,7,8), (0,3,6), (1,4,7), (2,5,8), (0,4,8), (2,4,6)]

/-- Spec §4.2: a board "has a winner" iff some winning triple has all
three cells equal and non-empty. -/
def hasWinLine (b : Nat → Nat) : Prop :=
  ∃ l ∈ winLines, b l.1 ≠ 0 ∧ b l.1 = b l.2.1 ∧ b l.1 = b l.2.2

instance (b : Nat → Nat) : Decidable (hasWinLine b) := by
  unfold hasWinLine; infer_instance

/-- Spec §4.2 as a boolean, for use inside scans. -/
def specHasWinner (b : Nat → Nat) : Bool := decide (hasWinLine b)

/-- Spec §4.3: the opponent selector as the spec words it — lowest-index
empty cell whose hypothetical opponent mark wins; else lowest-index empty
cell whose hypothetical player mark wins; else center; else first free
corner in `[0, 2, 6, 8]`; else first free cell in 0..8. -/
def specChoose (b : Nat → Nat) : Option Nat :=
  match (List.range 9).find? (fun p => b p == 0 && specHasWinner (Function.update b p 2)) with
  | some p => some p
  | none =>
    match (List.range 9).find? (fun p => b p == 0 && specHasWinner (Function.update b p 1)) with
    | some p => some p
    | none =>
      if b 4 = 0 then some 4
      else
        match [0, 2, 6, 8].find? (fun c => b c == 0) with
        | some c => some c
        | none => (List.range 9).find? (fun i => b i == 0)

/-- Spec §4.1: the first failing check of `makeMove`, in the order
invalid position, game not active, not authorized, out of turn, cell
occupied; `none` when all five pass. -/
def specFirstError (s : Contract) (sender position : Nat) : Option GameError :=
  if ¬ position ≤ 8 then some .InvalidPosition
  else if s.game_status ≠ 1 then some .GameNotActive
  else if sender ≠ s.player then some .NotAuthorized
  else if s.current_turn ≠ 1 then some .OutOfTurn
  else if s.board position ≠ 0 then some .CellOccupied
  else none

/-- Number of non-empty cells among indices 0..8. -/
def countNonEmpty (s : Contract) : Nat :=
  (List.range BOARD_SIZE).countP (fun i => s.board i != 0)

/- ------------------------------------------------------------------
Concrete states used by witnesses.
------------------------------------------------------------------ -/

/-- A fresh in-progress game: empty board, player 7 to move. -/
def sFresh : Contract :=
  { board := fun _ => 0, player := 7, current_turn := 1, game_status := 1,
    rng_seed := 1 }

/-- A finished game (status 2) with some leftover marks. -/
def sDone : Contract :=
  { board := fun i => if i < 3 then 1 else 0, player := 7, current_turn := 1,
    game_status := 2, rng_seed := 1 }

/-- Board one player move away from a simultaneous full-and-winning
position: placing 1 at cell 2 completes row (0,1,2) and fills the board. -/
def sAlmost : Contract :=
  { board := fun i => [1, 1, 0, 2, 2, 1, 2, 1, 2].getD i 0, player := 7,
    current_turn := 1, game_status := 1, rng_seed := 1 }

/-- Board one contract move away from a simultaneous full-and-winning
position: placing 2 at cell 2 completes row (0,1,2) and fills the board. -/
def sAlmostC : Contract :=
  { board := fun i => [2, 2, 0, 1, 1, 2, 1, 2, 1].getD i 0, player := 7,
    current_turn := 2, game_status := 1, rng_seed := 1 }

/-- A state with the same (empty) board as `sFresh` but different
player, turn, status and seed. -/
def sFresh2 : Contract :=
  { board := fun _ => 0, player := 9, current_turn := 2, game_status := 2,
    rng_seed := 5 }

/- ------------------------------------------------------------------
Helper lemmas (shared).
------------------------------------------------------------------ -/

/-- The line scan of the code agrees with the spec's 8-triple predicate. -/
theorem would_win_eq_spec (b : Nat → Nat) : would_win b = specHasWinner b := by
  rw [Bool.eq_iff_iff]
  simp only [would_win, specHasWinner, hasWinLine, winLines, Bool.or_eq_true,
    Bool.and_eq_true, bne_iff_ne, beq_iff_eq, decide_eq_true_eq, List.mem_cons,
    List.not_mem_nil, or_false, exists_eq_or_imp, exists_eq_left, and_assoc,
    or_assoc]

/-- `check_winner` is the same scan as `would_win`, on the stored board. -/
theorem check_winner_eq_would_win (s : Contract) :
    check_winner s = would_win s.board := rfl

/-- An out-of-range position is rejected before anything else. -/
theorem make_move_pos_big (s : Contract) (sender position : Nat)
    (h : 8 < position) :
    make_move s sender position = (s, [], some GameError.InvalidPosition) := by
  have hyes : BOARD_SIZE ≤ u256_to_usize position := by
    unfold u256_to_usize BOARD_SIZE; split <;> omega
  unfold make_move
  rw [if_pos hyes]

/-- A board that is not full has an empty cell among indices 0..8. -/
theorem not_full_exists_empty (s : Contract) (h : is_board_full s = false) :
    ∃ i, i < 9 ∧ s.board i = 0 := by
  unfold is_board_full BOARD_SIZE at h
  rw [List.all_eq_false] at h
  obtain ⟨i, hi, h0⟩ := h
  refine ⟨i, by simpa using hi, ?_⟩
  simpa using h0

/-- Any position returned by `find_winning_move` is an empty cell in
0..8. -/
theorem find_winning_move_empty (s : Contract) (pl p : Nat)
    (h : find_winning_move s pl = some p) : s.board p = 0 ∧ p < 9 := by
  unfold find_winning_move BOARD_SIZE at h
  have h1 := List.find?_some h
  have h2 := List.mem_of_find?_eq_some h
  simp only [Bool.and_eq_true, beq_iff_eq] at h1
  simp only [List.mem_range] at h2
  exact ⟨h1.1, h2⟩

/-- Any position the contract's selector commits to is an empty cell in
0..8. -/
theorem choose_contract_move_empty (s : Contract) (p : Nat)
    (h : choose_contract_move s = some p) : s.board p = 0 ∧ p < 9 := by
  unfold choose_contract_move at h
  cases hw2 : find_winning_move s 2 with
  | some q =>
    rw [hw2] at h
    cases h
    exact find_winning_move_empty s 2 p hw2
  | none =>
  rw [hw2] at h
  cases hw1 : find_winning_move s 1 with
  | some q =>
    rw [hw1] at h
    cases h
    exact find_winning_move_empty s 1 p hw1
  | none =>
  rw [hw1] at h
  by_cases h4 : s.board 4 = 0
  · rw [if_pos h4] at h
    cases h
    exact ⟨h4, by omega⟩
  · rw [if_neg h4] at h
    cases hcor : corners.find? (fun c => s.board c == 0) with
    | some c =>
      rw [hcor] at h
      cases h
      have h1 := List.find?_some hcor
      have h2 := List.mem_of_find?_eq_some hcor
      simp only [beq_iff_eq] at h1
      simp only [corners, List.mem_cons, List.not_mem_nil, or_false] at h2
      exact ⟨h1, by omega⟩
    | none =>
      rw [hcor] at h
      have h1 := List.find?_some h
      have h2 := List.mem_of_find?_eq_some h
      simp only [beq_iff_eq] at h1
      simp only [List.mem_range, BOARD_SIZE] at h2
      exact ⟨h1, h2⟩

/-- When the board has an empty cell, the selector cascade commits to
some position (rule 5 at the latest). -/
theorem choose_contract_move_isSome (s : Contract)
    (h : ∃ i, i < 9 ∧ s.board i = 0) :
    ∃ p, choose_contract_move s = some p := by
  unfold choose_contract_move
  cases hw2 : find_winning_move s 2 with
  | some q => exact ⟨q, rfl⟩
  | none =>
  cases hw1 : find_winning_move s 1 with
  | some q => exact ⟨q, rfl⟩
  | none =>
  by_cases h4 : s.board 4 = 0
  · rw [if_pos h4]; exact ⟨4, rfl⟩
  · rw [if_neg h4]
    cases hcor : corners.find? (fun c => s.board c == 0) with
    | some c => exact ⟨c, rfl⟩
    | none =>
      obtain ⟨i, hi, h0⟩ := h
      have hsome : ((List.range BOARD_SIZE).find? (fun i => s.board i == 0)).isSome := by
        rw [List.find?_isSome]
        exact ⟨i, by simp [List.mem_range, BOARD_SIZE]; omega, by simp [h0]⟩
      obtain ⟨p, hp⟩ := Option.isSome_iff_exists.mp hsome
      exact ⟨p, hp⟩

/-- `make_contract_move` never clears an occupied cell. -/
theorem make_contract_move_board (s : Contract) (i : Nat)
    (hi : s.board i ≠ 0) :
    (make_contract_move s).1.board i = s.board i := by
  cases hc : choose_contract_move s with
  | none =>
    unfold make_contract_move
    rw [hc]
  | some p =>
    have hmc : make_contract_move s = make_contract_move_at s p := by
      unfold make_contract_move
      rw [hc]
    have hp0 := (choose_contract_move_empty s p hc).1
    have hip : i ≠ p := fun he => hi (he ▸ hp0)
    rw [hmc]
    simp only [make_contract_move_at]
    split_ifs <;> simp [Function.update_noteq hip]

/- ------------------------------------------------------------------
Claim theorems.
------------------------------------------------------------------ -/

/-- C4: for every 9-cell board, the win detector — `would_win` on
hypothetical boards and `check_winner` on the stored board — returns
true iff one of the 8 fixed triples (0,1,2),(3,4,5),(6,7,8),(0,3,6),
(1,4,7),(2,5,8),(0,4,8),(2,4,6) has all three cells equal and
non-empty. -/
theorem win_detector_spec :
    (∀ b : Nat → Nat, would_win b = true ↔ hasWinLine b) ∧
    (∀ s : Contract, check_winner s = true ↔ hasWinLine s.board) := by
  have key : ∀ b : Nat → Nat, would_win b = true ↔ hasWinLine b := by
    intro b
    rw [would_win_eq_spec]
    simp [specHasWinner]
  exact ⟨key, fun s => by rw [check_winner_eq_would_win]; exact key s.board⟩

/-- C10: `supports_interface` is a pure function of the 4 identifier
bytes (it reads no storage) and returns true iff the big-endian u32 they
form equals the ERC-165 id 0x01ffc9a7; in particular it returns false on
0xffffffff. -/
theorem supports_interface_spec (s : Contract) (b0 b1 b2 b3 : Nat) :
    (supports_interface s b0 b1 b2 b3 = true ↔
      ((b0 * 256 + b1) * 256 + b2) * 256 + b3 = 0x01ffc9a7) ∧
    supports_interface s 0xff 0xff 0xff 0xff = false := by
  constructor
  · simp [supports_interface]
  · rfl

/-- C1 (code-bug evidence): with `game_status = 2` (Finished), the
code's guard `game_status != 0` makes `start_game` fail with the
"Game already in progress" error and change nothing, although the game
is finished, not in progress — so a game can never be restarted after it
ends, contradicting the claimed idempotent reset from `Finished`. -/
theorem start_game_rejected_when_finished :
    sDone.game_status = 2 ∧
    start_game sDone 7 = (sDone, [], some GameError.GameAlreadyActive) :=
  ⟨rfl, rfl⟩

/-- C9: any position above 8 — whether or not it fits the machine index
type — is rejected with `InvalidPosition` in every state, with the state
unchanged and no event emitted. -/
theorem make_move_invalid_position (s : Contract) (sender position : Nat)
    (h : 8 < position) :
    make_move s sender position = (s, [], some GameError.InvalidPosition) :=
  make_move_pos_big s sender position h

/-- Witness for C9 at positions 9 and 100. -/
theorem make_move_invalid_position_witness :
    (8 < 9 ∧ make_move sFresh 5 9 = (sFresh, [], some GameError.InvalidPosition)) ∧
    (8 < 100 ∧ make_move sFresh 5 100 = (sFresh, [], some GameError.InvalidPosition)) :=
  ⟨⟨by decide, make_move_invalid_position sFresh 5 9 (by decide)⟩,
   ⟨by decide, make_move_invalid_position sFresh 5 100 (by decide)⟩⟩

/-- C2: `make_move` returns exactly the first failing check of the
spec's five-step validation chain (invalid position, game not active,
not authorized, out of turn, cell occupied), and whenever it returns an
error the stored state is unchanged. -/
theorem make_move_error_spec (s : Contract) (sender position : Nat) :
    (make_move s sender position).2.2 = specFirstError s sender position ∧
    ((make_move s sender position).2.2 = none ∨
      (make_move s sender position).1 = s) := by
  by_cases h9 : position ≤ 8
  · have hval : u256_to_usize position = position := by
      unfold u256_to_usize
      exact if_pos (by omega)
    have hno : ¬ BOARD_SIZE ≤ position := by
      unfold BOARD_SIZE; omega
    simp only [make_move, specFirstError, hval, if_neg hno,
      if_neg (not_not_intro h9)]
    split_ifs <;> simp
  · have hyes : BOARD_SIZE ≤ u256_to_usize position := by
      unfold u256_to_usize BOARD_SIZE; split <;> omega
    simp only [make_move, specFirstError, if_pos hyes, if_pos h9]
    simp

/-- C7: whenever the board has at least one empty cell — which is the
case whenever `make_move` reaches the opponent, since it returns on a
win or a full board first — the selector cascade commits to exactly one
position and `make_contract_move` never falls through without moving. -/
theorem contract_selector_total (s : Contract)
    (h : ∃ i, i < 9 ∧ s.board i = 0) :
    ∃ p, choose_contract_move s = some p ∧
      make_contract_move s = make_contract_move_at s p := by
  obtain ⟨p, hp⟩ := choose_contract_move_isSome s h
  refine ⟨p, hp, ?_⟩
  unfold make_contract_move
  rw [hp]

/-- Witness for C7 on a board with empty cells. -/
theorem contract_selector_total_witness :
    (∃ i, i < 9 ∧ sAlmostC.board i = 0) ∧
    ∃ p, choose_contract_move sAlmostC = some p ∧
      make_contract_move sAlmostC = make_contract_move_at sAlmostC p :=
  ⟨⟨2, by decide, by decide⟩, contract_selector_total sAlmostC ⟨2, by decide, by decide⟩⟩

/-- C3: the opponent selector is exactly the spec's fixed priority —
first winning cell (ascending scan), else first blocking cell, else
center, else first free corner in [0, 2, 6, 8], else first free cell in
0..8 — and it is a deterministic function of the board alone. -/
theorem contract_move_follows_priority :
    (∀ s : Contract, choose_contract_move s = specChoose s.board) ∧
    (∀ s t : Contract, s.board = t.board →
      choose_contract_move s = choose_contract_move t) := by
  have key : ∀ s : Contract, choose_contract_move s = specChoose s.board := by
    intro s
    simp only [choose_contract_move, specChoose, find_winning_move, corners,
      BOARD_SIZE, would_win_eq_spec]
  exact ⟨key, fun s t h => by rw [key s, key t, h]⟩

/-- Witness for C3: two states sharing a board give the same choice. -/
theorem contract_move_follows_priority_witness :
    choose_contract_move sFresh = specChoose sFresh.board ∧
    (sFresh.board = sFresh2.board ∧
      choose_contract_move sFresh = choose_contract_move sFresh2) :=
  ⟨contract_move_follows_priority.1 sFresh,
   rfl, contract_move_follows_priority.2 sFresh sFresh2 rfl⟩

/-- C5: a move whose resulting board is simultaneously full and winning
is reported as a win (status Finished, `GameWon`) and never as a draw,
on the player's path in `make_move` and on the opponent's path in
`make_contract_move_at`. -/
theorem win_precedence_over_draw :
    (∀ (s : Contract) (sender position : Nat),
      position ≤ 8 → s.game_status = 1 → sender = s.player →
      s.current_turn = 1 → s.board position = 0 →
      check_winner { s with board := Function.update s.board position 1 } = true →
      is_board_full { s with board := Function.update s.board position 1 } = true →
      make_move s sender position =
        ({ s with board := Function.update s.board position 1, game_status := 2 },
         [.PlayerMove position, .GameWon sender], none)) ∧
    (∀ (s : Contract) (position : Nat),
      check_winner { s with board := Function.update s.board position 2 } = true →
      is_board_full { s with board := Function.update s.board position 2 } = true →
      make_contract_move_at s position =
        ({ s with board := Function.update s.board position 2, game_status := 2 },
         [.ContractMove position, .GameWon 0])) := by
  constructor
  · intro s sender position h8 hst hpl ht hc hw _hf
    have hval : u256_to_usize position = position := by
      unfold u256_to_usize
      exact if_pos (by omega)
    have hno : ¬ BOARD_SIZE ≤ position := by unfold BOARD_SIZE; omega
    simp only [make_move, hval, if_neg hno, if_neg (not_not_intro hst),
      if_neg (not_not_intro hpl), if_neg (not_not_intro ht),
      if_neg (not_not_intro hc), if_pos hw]
  · intro s position hw _hf
    simp only [make_contract_move_at, if_pos hw]

/-- Witness for C5: completing row (0,1,2) on an otherwise full board,
once by the player and once by the contract. -/
theorem win_precedence_over_draw_witness :
    (check_winner { sAlmost with board := Function.update sAlmost.board 2 1 } = true ∧
     is_board_full { sAlmost with board := Function.update sAlmost.board 2 1 } = true ∧
     make_move sAlmost 7 2 =
       ({ sAlmost with board := Function.update sAlmost.board 2 1, game_status := 2 },
        [.PlayerMove 2, .GameWon 7], none)) ∧
    (check_winner { sAlmostC with board := Function.update sAlmostC.board 2 2 } = true ∧
     is_board_full { sAlmostC with board := Function.update sAlmostC.board 2 2 } = true ∧
     make_contract_move_at sAlmostC 2 =
       ({ sAlmostC with board := Function.update sAlmostC.board 2 2, game_status := 2 },
        [.ContractMove 2, .GameWon 0])) :=
  ⟨⟨by decide, by decide,
    win_precedence_over_draw.1 sAlmost 7 2 (by decide) rfl rfl rfl (by decide)
      (by decide) (by decide)⟩,
   ⟨by decide, by decide,
    win_precedence_over_draw.2 sAlmostC 2 (by decide) (by decide)⟩⟩

/-- C8: `make_move` (with its embedded opponent reply) never changes an
occupied cell — only `start_game` resets cells — so the number of
occupied cells never decreases across a call and never exceeds 9. -/
theorem make_move_monotone (s : Contract) (sender position : Nat) :
    (∀ i, i < 9 → s.board i ≠ 0 →
      (make_move s sender position).1.board i = s.board i) ∧
    countNonEmpty s ≤ countNonEmpty (make_move s sender position).1 ∧
    countNonEmpty (make_move s sender position).1 ≤ 9 := by
  have hpres : ∀ i, s.board i ≠ 0 →
      (make_move s sender position).1.board i = s.board i := by
    intro i hi
    simp only [make_move]
    split_ifs with h1 h2 h3 h4 h5 h6 h7
    · rfl
    · rfl
    · rfl
    · rfl
    · rfl
    · -- player's winning move: the board gains only cell `pos`
      have hip : i ≠ u256_to_usize position := fun he => by
        rw [he] at hi; exact hi (not_not.mp h5)
      simp [Function.update_noteq hip]
    · -- draw after the player's move
      have hip : i ≠ u256_to_usize position := fun he => by
        rw [he] at hi; exact hi (not_not.mp h5)
      simp [Function.update_noteq hip]
    · -- contract reply: the occupied cell survives both marks
      have hip : i ≠ u256_to_usize position := fun he => by
        rw [he] at hi; exact hi (not_not.mp h5)
      have hmid : (Function.update s.board (u256_to_usize position) 1) i = s.board i :=
        Function.update_noteq hip 1 s.board
      exact (make_contract_move_board _ i (by simpa [hmid] using hi)).trans hmid
  refine ⟨fun i _ hi => hpres i hi, ?_, ?_⟩
  · unfold countNonEmpty
    apply List.countP_mono_left
    intro a _ hpa
    have ha : s.board a ≠ 0 := by simpa using hpa
    have := hpres a ha
    simpa [this] using hpa
  · unfold countNonEmpty
    exact le_trans (List.countP_le_length _) (by simp [BOARD_SIZE])

/-- Witness for C8 on a concrete in-progress game. -/
theorem make_move_monotone_witness :
    (0 < 9 ∧ sAlmost.board 0 ≠ 0 ∧
      (make_move sAlmost 7 2).1.board 0 = sAlmost.board 0) ∧
    countNonEmpty sAlmost ≤ countNonEmpty (make_move sAlmost 7 2).1 ∧
    countNonEmpty (make_move sAlmost 7 2).1 ≤ 9 :=
  ⟨⟨by decide, by decide, (make_move_monotone sAlmost 7 2).1 0 (by decide) (by decide)⟩,
   (make_move_monotone sAlmost 7 2).2.1, (make_move_monotone sAlmost 7 2).2.2⟩

/-- C6: a successful `make_move` that leaves the game in progress ends
with the player's turn and changes exactly two cells of the board: the
argument position from empty to the player's mark, and one other
(previously empty) cell to the contract's mark. -/
theorem make_move_nonterminal_shape (s : Contract) (sender position : Nat)
    (hok : (make_move s sender position).2.2 = none)
    (hip : (make_move s sender position).1.game_status = 1) :
    (make_move s sender position).1.current_turn = 1 ∧
    position ≤ 8 ∧ s.board position = 0 ∧
    (make_move s sender position).1.board position = 1 ∧
    ∃ c, c < 9 ∧ c ≠ position ∧ s.board c = 0 ∧
      (make_move s sender position).1.board c = 2 ∧
      ∀ i, i ≠ position → i ≠ c →
        (make_move s sender position).1.board i = s.board i := by
  by_cases h9 : position ≤ 8
  case neg =>
    rw [make_move_pos_big s sender position (by omega)] at hok
    simp at hok
  case pos =>
  have hval : u256_to_usize position = position := by
    unfold u256_to_usize
    exact if_pos (by omega)
  simp only [make_move, hval] at hok hip ⊢
  split_ifs at hok hip ⊢ with h1 h2 h3 h4 h5 h6 h7
  · simp at hip
  · simp at hip
  · -- the non-terminal path: player mark, then the contract's reply
    dsimp only at hok hip ⊢
    have hboard0 : s.board position = 0 := not_not.mp h5
    have h7' : is_board_full
        { s with board := Function.update s.board position 1 } = false := by
      simpa using h7
    have hfull : ∃ i, i < 9 ∧ Function.update s.board position 1 i = 0 := by
      simpa using not_full_exists_empty _ h7'
    obtain ⟨c, hc⟩ := choose_contract_move_isSome
      { s with board := Function.update s.board position 1, current_turn := 2 }
      (by simpa using hfull)
    have hce := choose_contract_move_empty _ c hc
    have hc0 : Function.update s.board position 1 c = 0 := by
      simpa using hce.1
    have hcp : c ≠ position := by
      intro he
      rw [he, Function.update_same] at hc0
      exact one_ne_zero hc0
    have hsc : s.board c = 0 := by
      rwa [Function.update_noteq hcp] at hc0
    have hmc : make_contract_move
        { s with board := Function.update s.board position 1, current_turn := 2 } =
        make_contract_move_at
          { s with board := Function.update s.board position 1, current_turn := 2 } c := by
      unfold make_contract_move
      rw [hc]
    rw [hmc] at hip ⊢
    simp only [make_contract_move_at] at hip ⊢
    split_ifs at hip ⊢ with h8 h9'
    · simp at hip
    · simp at hip
    · -- the contract's reply also left the game running
      refine ⟨by simp, h9, hboard0, ?_, c, hce.2, hcp, hsc, ?_, ?_⟩
      · simp [Function.update_noteq (Ne.symm hcp), Function.update_same]
      · simp [Function.update_same]
      · intro i hiP hiC
        simp [Function.update_noteq hiC, Function.update_noteq hiP]

/-- Witness for C6: on a fresh game the player plays cell 0 and the
contract replies at the center, cell 4. -/
theorem make_move_nonterminal_shape_witness :
    ((make_move sFresh 7 0).2.2 = none ∧
     (make_move sFresh 7 0).1.game_status = 1) ∧
    ((make_move sFresh 7 0).1.current_turn = 1 ∧
     0 ≤ 8 ∧ sFresh.board 0 = 0 ∧
     (make_move sFresh 7 0).1.board 0 = 1 ∧
     ∃ c, c < 9 ∧ c ≠ 0 ∧ sFresh.board c = 0 ∧
       (make_move sFresh 7 0).1.board c = 2 ∧
       ∀ i, i ≠ 0 → i ≠ c →
         (make_move sFresh 7 0).1.board i = sFresh.board i) :=
  ⟨⟨by decide, by decide⟩,
   make_move_nonterminal_shape sFresh 7 0 (by decide) (by decide)⟩
